import Mathlib

/-!
Verification of the pincer connection-lifecycle and request/response
correlation core: a shallow embedding of `plugin/src/connection-store.ts`,
the websocket handler (`createWsHandler`) and the client-side
`src/lib/connection.ts`, together with proofs of the specified properties.

JavaScript `Map`s are modelled as association lists that keep insertion
order (`mapGet` finds the first binding, `mapSet` overwrites in place,
`mapDelete` drops the binding); machine timestamps and timer handles are
natural numbers; the impure clock (`Date.now()`) and fresh `setTimeout`
handles are passed explicitly; observable effects (promise resolution,
socket writes, timer arming/clearing, subscriber invocation) are emitted
as an `Output` trace.
-/

namespace Pincer

/-- Lookup in a JS `Map` modelled as an association list (first binding wins). -/
def mapGet {α : Type} (m : List (String × α)) (k : String) : Option α :=
  match m with
  | [] => none
  | (k0, v0) :: rest => if k0 = k then some v0 else mapGet rest k

/-- JS `Map.set`: overwrite the existing binding in place, else append. -/
def mapSet {α : Type} (m : List (String × α)) (k : String) (v : α) : List (String × α) :=
  match m with
  | [] => [(k, v)]
  | (k0, v0) :: rest => if k0 = k then (k, v) :: rest else (k0, v0) :: mapSet rest k v

/-- JS `Map.delete`: drop the binding for `k`. -/
def mapDelete {α : Type} (m : List (String × α)) (k : String) : List (String × α) :=
  match m with
  | [] => []
  | (k0, v0) :: rest => if k0 = k then rest else (k0, v0) :: mapDelete rest k

/-- Opaque model of an `unknown` JSON payload value. -/
abbrev JsValue := String

/-- The `PageContext` interface of `connection-store.ts`: url, title, optional
selected/visible text, optional key-value metadata, capture timestamp. -/
structure PageContext where
  url : String
  title : String
  selectedText : Option String
  visibleText : Option String
  meta : List (String × String)
  timestamp : Nat
deriving DecidableEq, Repr

/-- The `TabConnection` interface: identity, display metadata, the borrowed
socket handle (observed through its `readyState`), timestamps, cached context. -/
structure TabConnection where
  id : String
  tabId : Nat
  url : String
  title : String
  wsReadyState : Nat
  connectedAt : Nat
  lastActivity : Nat
  context : Option PageContext
deriving DecidableEq, Repr

/-- The `PincerCommand` interface: `type`, `requestId`, plus arbitrary extra
fields (`[key: string]: unknown`). -/
structure PincerCommand where
  type : String
  requestId : String
  extra : List (String × JsValue)
deriving DecidableEq, Repr

/-- An entry of the `pendingCommands` map. The `resolve`/`reject` continuations
are identified by the map key in the emitted `Output` trace; the stored
`timeout` handle is kept explicitly. -/
structure PendingCommand where
  timerId : Nat
deriving DecidableEq, Repr

/-- Observable effects of the store and websocket-handler operations. -/
inductive Output where
  | resolved (key : String) (value : JsValue)
  | rejected (key : String) (msg : String)
  | timerSet (timerId : Nat) (delayMs : Nat)
  | timerCleared (timerId : Nat)
  | wsSend (connId : String) (command : PincerCommand)
  | handlerRun (idx : Nat) (ok : Bool)
deriving DecidableEq, Repr

/-- A context subscriber registered through `onContextUpdate`; it may raise. -/
abbrev Handler := TabConnection → PageContext → Except String Unit

/-- The closure state of `createConnectionStore`: the `connections` map, the
`pendingCommands` map and the `contextHandlers` array. -/
structure StoreState where
  connections : List (String × TabConnection)
  pendingCommands : List (String × PendingCommand)
  contextHandlers : List Handler

/-- The operation `add(conn)`: `connections.set(conn.id, conn)`. -/
def add (s : StoreState) (conn : TabConnection) : StoreState :=
  { s with connections := mapSet s.connections conn.id conn }

/-- Models the JavaScript string method `s.startsWith(search)` as a
character-list prefix test. -/
def jsStartsWith (s search : String) : Bool :=
  search.data.isPrefixOf s.data

/-- The cleanup loop of `remove(id)`: iterate over `pendingCommands`; for every
entry whose key satisfies `reqId.startsWith(id)`, clear its timer, reject it
with `"Connection closed"` and delete it. Returns the surviving map and the
emitted effects in iteration order. -/
def removePendingLoop (id : String) : List (String × PendingCommand) → List (String × PendingCommand) × List Output
  | [] => ([], [])
  | (reqId, p) :: rest =>
      let r := removePendingLoop id rest
      if jsStartsWith reqId id then
        (r.1, Output.timerCleared p.timerId :: Output.rejected reqId "Connection closed" :: r.2)
      else
        ((reqId, p) :: r.1, r.2)

/-- The operation `remove(id)`: when the connection exists, delete it and run
the pending-command cleanup loop; otherwise do nothing. -/
def remove (s : StoreState) (id : String) : StoreState × List Output :=
  match mapGet s.connections id with
  | none => (s, [])
  | some _ =>
      let cleanup := removePendingLoop id s.pendingCommands
      ({ s with connections := mapDelete s.connections id,
                pendingCommands := cleanup.1 },
       cleanup.2)

/-- The operation `get(id)`. -/
def get (s : StoreState) (id : String) : Option TabConnection :=
  mapGet s.connections id

/-- The operation `getByTabId(tabId)`: first connection (in map iteration
order) whose `tabId` matches. -/
def getByTabId (s : StoreState) (tabId : Nat) : Option TabConnection :=
  (s.connections.map Prod.snd).find? (fun conn => conn.tabId == tabId)

/-- The operation `list()`: snapshot of all connections. -/
def listConnections (s : StoreState) : List TabConnection :=
  s.connections.map Prod.snd

/-- The notification loop of `updateContext`: call every handler in
registration order; a raising handler is caught (`try`/`catch`) and logged.
The trace records each invocation's index and whether it returned normally. -/
def runHandlers (conn : TabConnection) (context : PageContext) : List Handler → Nat → List Output
  | [], _ => []
  | h :: rest, i =>
      (match h conn context with
       | Except.ok _ => Output.handlerRun i true
       | Except.error _ => Output.handlerRun i false) :: runHandlers conn context rest (i + 1)

/-- The operation `updateContext(id, context)`: when the connection exists,
store the context, set `lastActivity` to `Date.now()` (passed as `now`),
refresh `url`/`title` from the context, then notify all handlers. -/
def updateContext (s : StoreState) (id : String) (context : PageContext) (now : Nat) : StoreState × List Output :=
  match mapGet s.connections id with
  | none => (s, [])
  | some conn =>
      let conn2 := { conn with context := some context, lastActivity := now,
                               url := context.url, title := context.title }
      ({ s with connections := mapSet s.connections id conn2 },
       runHandlers conn2 context s.contextHandlers 0)

/-- The fold step of `getActive()`: keep the candidate with
`conn.lastActivity > maxActivity`, starting from `maxActivity = 0`. -/
def activeStep (acc : Option TabConnection × Nat) (conn : TabConnection) : Option TabConnection × Nat :=
  if conn.lastActivity > acc.2 then (some conn, conn.lastActivity) else acc

/-- The operation `getActive()`: scan all connections with `activeStep`. -/
def getActive (s : StoreState) : Option TabConnection :=
  ((s.connections.map Prod.snd).foldl activeStep (none, 0)).1

/-- Outcome of `sendCommand`: an immediately rejected promise
(`Connection not found` / `Connection not open`) or an armed pending entry. -/
inductive SendOutcome where
  | failedNotFound (id : String)
  | failedNotOpen (id : String)
  | pendingArmed (key : String)
deriving DecidableEq, Repr

/-- The operation `sendCommand(id, command)`: validate the connection exists
and `conn.ws.readyState === 1`; otherwise arm a 30000 ms timeout under key
`id + ":" + command.requestId`, record the pending entry, and transmit the
serialized command. `timerId` is the fresh `setTimeout` handle. -/
def sendCommand (s : StoreState) (id : String) (command : PincerCommand) (timerId : Nat) :
    StoreState × List Output × SendOutcome :=
  match mapGet s.connections id with
  | none => (s, [], SendOutcome.failedNotFound id)
  | some conn =>
      if conn.wsReadyState ≠ 1 then
        (s, [], SendOutcome.failedNotOpen id)
      else
        let requestId := id ++ ":" ++ command.requestId
        ({ s with pendingCommands := mapSet s.pendingCommands requestId { timerId := timerId } },
         [Output.timerSet timerId 30000, Output.wsSend id command],
         SendOutcome.pendingArmed requestId)

/-- The body of the `setTimeout` callback armed by `sendCommand`:
`pendingCommands.delete(requestId); reject(new Error("Command timeout"))`. -/
def fireCommandTimeout (s : StoreState) (requestId : String) : StoreState × List Output :=
  ({ s with pendingCommands := mapDelete s.pendingCommands requestId },
   [Output.rejected requestId "Command timeout"])

/-- The operation `onContextUpdate(handler)`: `contextHandlers.push(handler)`. -/
def onContextUpdate (s : StoreState) (h : Handler) : StoreState :=
  { s with contextHandlers := s.contextHandlers ++ [h] }

/-- The dynamic property access `(store as any).pendingCommands` performed by
`handleCommandResult`. The object returned by `createConnectionStore` exposes
only its methods; `pendingCommands` is a closure variable of
`createConnectionStore` and is never attached to the returned object, so this
access evaluates to `undefined` on every store the factory produces. -/
def storePendingCommandsProperty (_s : StoreState) : Option (List (String × PendingCommand)) :=
  none

/-- The exported function `handleCommandResult(store, connId, requestId,
result)`: read `(store as any).pendingCommands`, and — via the optional
chaining `?.get(fullId)` — when that yields an entry, clear its timer, resolve
it with the result and delete it. -/
def handleCommandResult (s : StoreState) (connId : String) (requestId : String) (result : JsValue) :
    StoreState × List Output :=
  let fullId := connId ++ ":" ++ requestId
  match storePendingCommandsProperty s with
  | none => (s, [])
  | some pcs =>
      match mapGet pcs fullId with
      | none => (s, [])
      | some pending =>
          ({ s with pendingCommands := mapDelete s.pendingCommands fullId },
           [Output.timerCleared pending.timerId, Output.resolved fullId result])

/-! Client-side connection lifecycle, from `src/lib/connection.ts`. -/

/-- The `ConnectionStatus` union type of `connection.ts`. -/
inductive ConnectionStatus where
  | disconnected
  | connecting
  | connected
  | error
deriving DecidableEq, Repr

/-- Observable effects of the client connection lifecycle. -/
inductive ClientOutput where
  | statusChange (s : ConnectionStatus)
  | errorNotify
  | timerSet (timerId : Nat) (delayMs : Nat)
deriving DecidableEq, Repr

/-- The mutable fields of `GatewayConnection` that the lifecycle touches:
`ws` is `some readyState` when a socket object exists and `none` when
`this.ws === null`; `reconnectTimer` holds the armed timer handle. -/
structure GatewayConnection where
  ws : Option Nat
  reconnectTimer : Option Nat
  reconnectAttempts : Nat
deriving DecidableEq, Repr

/-- The constant field `maxReconnectAttempts = 5`. -/
def maxReconnectAttempts : Nat := 5

/-- The constant field `reconnectDelay = 1000`. -/
def reconnectDelay : Nat := 1000

/-- The `status` getter: `'disconnected'` without a socket, then a switch on
`readyState` — `CONNECTING` (0) gives `'connecting'`, `OPEN` (1) gives
`'connected'`, and the default branch (`CLOSING`, `CLOSED`) gives
`'disconnected'`. -/
def status (c : GatewayConnection) : ConnectionStatus :=
  match c.ws with
  | none => ConnectionStatus.disconnected
  | some readyState =>
      if readyState = 0 then ConnectionStatus.connecting
      else if readyState = 1 then ConnectionStatus.connected
      else ConnectionStatus.disconnected

/-- The private method `scheduleReconnect()`: stop silently once
`reconnectAttempts >= maxReconnectAttempts`; otherwise compute
`delay = reconnectDelay * 2 ** reconnectAttempts`, increment the counter and
arm a one-shot timer (fresh handle `timerId`) that calls `connect()`. -/
def scheduleReconnect (c : GatewayConnection) (timerId : Nat) : GatewayConnection × List ClientOutput :=
  if c.reconnectAttempts ≥ maxReconnectAttempts then (c, [])
  else
    let delay := reconnectDelay * 2 ^ c.reconnectAttempts
    ({ c with reconnectAttempts := c.reconnectAttempts + 1, reconnectTimer := some timerId },
     [ClientOutput.timerSet timerId delay])

/-- Iterate `scheduleReconnect` over a list of fresh timer handles,
concatenating the emitted effects. -/
def runScheduleSeq (c : GatewayConnection) : List Nat → GatewayConnection × List ClientOutput
  | [] => (c, [])
  | t :: ts =>
      let r := scheduleReconnect c t
      let rest := runScheduleSeq r.1 ts
      (rest.1, r.2 ++ rest.2)

/-- The `ws.onerror` handler: notify `'error'` status and surface the failure
through `onError`; it touches neither the socket, the reconnect timer nor the
attempt counter. -/
def onWsError (c : GatewayConnection) : GatewayConnection × List ClientOutput :=
  (c, [ClientOutput.statusChange ConnectionStatus.error, ClientOutput.errorNotify])

/-- The `ws.onclose` handler: notify `'disconnected'` status, then call
`scheduleReconnect()`. -/
def onWsClose (c : GatewayConnection) (timerId : Nat) : GatewayConnection × List ClientOutput :=
  let r := scheduleReconnect c timerId
  (r.1, ClientOutput.statusChange ConnectionStatus.disconnected :: r.2)

/-- Recognizer for timer-arming effects in a client trace. -/
def isTimerSet : ClientOutput → Bool
  | ClientOutput.timerSet _ _ => true
  | _ => false

/-! Websocket handler, from `plugin/src/ws-handler.ts` (`createWsHandler`). -/

/-- The runtime value of `message.payload` after `JSON.parse`: a page-context
object, a selection text object, or any other blob. -/
inductive Payload where
  | context (c : PageContext)
  | text (t : String)
  | blob (s : String)
deriving DecidableEq, Repr

/-- Models the unchecked `message.payload as PageContext` cast: a non-context
payload still yields an object whose field reads produce arbitrary runtime
values, rendered deterministically here. -/
def Payload.asPageContext : Payload → PageContext
  | Payload.context c => c
  | Payload.text t => { url := t, title := t, selectedText := none, visibleText := none, meta := [], timestamp := 0 }
  | Payload.blob s => { url := s, title := s, selectedText := none, visibleText := none, meta := [], timestamp := 0 }

/-- Renders a payload as the opaque value handed to `handleCommandResult`. -/
def Payload.asValue : Payload → JsValue
  | Payload.context c => c.url
  | Payload.text t => t
  | Payload.blob s => s

/-- The parsed `PincerMessage` envelope. `tabId = 0` models a falsy `tabId`
field (absent in the parsed JSON, or zero); `requestId` is optional. -/
structure PincerMessage where
  type : String
  tabId : Nat
  url : String
  timestamp : Nat
  requestId : Option String
  payload : Payload
deriving DecidableEq, Repr

/-- The per-socket closure state of `handleUpgrade`: the `tabId` local
variable, the socket (observed through its `readyState`) and the shared store. -/
structure WsState where
  tabIdVar : Option Nat
  wsReadyState : Nat
  store : StoreState

/-- The `switch (message.type)` dispatch of `handleMessage`: `connect`,
`selection`, `screenshot`, `dom_snapshot` and unknown types only log;
`disconnect` removes the connection; `page_context` calls
`handlePageContext`, which forwards `{...context, timestamp: Date.now()}` to
`updateContext`; `command_result` calls `handleCommandResult` when a
`requestId` is present. -/
def dispatchMessage (connId : String) (now : Nat) (msg : PincerMessage) (w : WsState) : WsState × List Output :=
  if msg.type = "connect" then (w, [])
  else if msg.type = "disconnect" then
    let r := remove w.store connId
    ({ w with store := r.1 }, r.2)
  else if msg.type = "page_context" then
    let context := msg.payload.asPageContext
    let r := updateContext w.store connId { context with timestamp := now } now
    ({ w with store := r.1 }, r.2)
  else if msg.type = "selection" then (w, [])
  else if msg.type = "command_result" then
    match msg.requestId with
    | some rid =>
        let r := handleCommandResult w.store connId rid msg.payload.asValue
        ({ w with store := r.1 }, r.2)
    | none => (w, [])
  else if msg.type = "screenshot" then (w, [])
  else if msg.type = "dom_snapshot" then (w, [])
  else (w, [])

/-- The `handleMessage` closure: when the message carries a truthy `tabId` and
the local `tabId` variable is still unset, bind it and `add` the registry
entry (display `title` empty, `url` from the message, both timestamps set to
`Date.now()`); then run the type dispatch. -/
def handleMessage (connId : String) (now : Nat) (msg : PincerMessage) (w : WsState) : WsState × List Output :=
  let w1 :=
    if msg.tabId ≠ 0 ∧ w.tabIdVar = none then
      { w with tabIdVar := some msg.tabId,
               store := add w.store
                 { id := connId, tabId := msg.tabId, url := msg.url, title := "",
                   wsReadyState := w.wsReadyState, connectedAt := now, lastActivity := now,
                   context := none } }
    else w
  dispatchMessage connId now msg w1

/-- Folds `handleMessage` over a sequence of inbound messages, each paired
with its arrival clock value. -/
def runMessages (connId : String) (w : WsState) : List (Nat × PincerMessage) → WsState
  | [] => w
  | (now, m) :: rest => runMessages connId (handleMessage connId now m w).1 rest

/-- The tab id bound by the first message of the sequence carrying a truthy
`tabId`, when any. -/
def firstTabBinding : List (Nat × PincerMessage) → Option Nat
  | [] => none
  | (_, m) :: rest => if m.tabId ≠ 0 then some m.tabId else firstTabBinding rest

/-! Invariant used to settle claim C9. -/

/-- Every registry entry keyed `connId` carries the bound tab id `b`, and the
closure's `tabId` variable agrees with `b`. -/
def TabBindingInv (connId : String) (w : WsState) (b : Option Nat) : Prop :=
  w.tabIdVar = b ∧ ∀ p ∈ w.store.connections, p.1 = connId → b = some p.2.tabId

/-- One-message evolution of the bound tab id. -/
def stepBinding (b : Option Nat) (m : PincerMessage) : Option Nat :=
  match b with
  | some t => some t
  | none => if m.tabId ≠ 0 then some m.tabId else none

/-- The bound tab id after a whole message sequence. -/
def bindAfter (b : Option Nat) (msgs : List (Nat × PincerMessage)) : Option Nat :=
  match b with
  | some t => some t
  | none => firstTabBinding msgs

/-! Concrete states used by the closed scenarios. -/

/-- A live tab connection with an open socket. -/
def connC1 : TabConnection :=
  { id := "c1", tabId := 7, url := "https://a", title := "A", wsReadyState := 1,
    connectedAt := 100, lastActivity := 100, context := none }

/-- A registry holding only `connC1`, with no pending requests. -/
def exampleStoreC1 : StoreState :=
  { connections := [("c1", connC1)], pendingCommands := [], contextHandlers := [] }

/-- The click command of the end-to-end scenario. -/
def clickCommand : PincerCommand :=
  { type := "click", requestId := "r1", extra := [("ref", "e3")] }

/-- A connection whose id `"c"` is a string prefix of the other id `"c2"`. -/
def connC : TabConnection :=
  { id := "c", tabId := 1, url := "u1", title := "t1", wsReadyState := 1,
    connectedAt := 10, lastActivity := 10, context := none }

/-- A second, distinct connection with id `"c2"`. -/
def connC2 : TabConnection :=
  { id := "c2", tabId := 2, url := "u2", title := "t2", wsReadyState := 1,
    connectedAt := 20, lastActivity := 20, context := none }

/-- A registry with both connections and one request pending under `"c2"`. -/
def exampleStoreC2 : StoreState :=
  { connections := [("c", connC), ("c2", connC2)],
    pendingCommands := [("c2:r1", { timerId := 5 })],
    contextHandlers := [] }

/-- A connection whose socket is already closed (`readyState = 3`). -/
def connClosed : TabConnection :=
  { id := "c3", tabId := 4, url := "u3", title := "t3", wsReadyState := 3,
    connectedAt := 30, lastActivity := 30, context := none }

/-- A registry used for the `sendCommand` validation scenario. -/
def exampleStoreC4 : StoreState :=
  { connections := [("c3", connClosed)], pendingCommands := [], contextHandlers := [] }

/-- A context subscriber that always raises. -/
def badHandler : Handler := fun _ _ => Except.error "boom"

/-- A context subscriber that returns normally. -/
def okHandler : Handler := fun _ _ => Except.ok ()

/-- A registry with one connection and two subscribers, the first raising. -/
def exampleStoreC7 : StoreState :=
  { connections := [("c1", connC1)], pendingCommands := [],
    contextHandlers := [badHandler, okHandler] }

/-- The context delivered in the `updateContext` scenario. -/
def exampleContext : PageContext :=
  { url := "https://b", title := "B", selectedText := some "sel", visibleText := none,
    meta := [], timestamp := 50 }

/-- A connection whose `lastActivity` is zero. -/
def connZero : TabConnection :=
  { id := "z", tabId := 3, url := "u", title := "t", wsReadyState := 1,
    connectedAt := 0, lastActivity := 0, context := none }

/-- A non-empty registry in which every `lastActivity` is zero. -/
def exampleStoreC8 : StoreState :=
  { connections := [("z", connZero)], pendingCommands := [], contextHandlers := [] }

/-- Two connections with distinct positive activity, the later one more active. -/
def exampleStoreC8b : StoreState :=
  { connections := [("c1", connC1), ("c2", connC2)], pendingCommands := [],
    contextHandlers := [] }

/-- A fresh per-socket handler state over an empty registry. -/
def exampleW0 : WsState :=
  { tabIdVar := none, wsReadyState := 1,
    store := { connections := [], pendingCommands := [], contextHandlers := [] } }

/-- First inbound message: carries tab id 7. -/
def exampleMsg1 : PincerMessage :=
  { type := "connect", tabId := 7, url := "https://a", timestamp := 10,
    requestId := none, payload := Payload.blob "x" }

/-- Second inbound message: carries a different tab id 9. -/
def exampleMsg2 : PincerMessage :=
  { type := "page_context", tabId := 9, url := "https://b", timestamp := 20,
    requestId := none, payload := Payload.context exampleContext }

/-- The two-message inbound sequence of the binding scenario. -/
def exampleMsgs : List (Nat × PincerMessage) := [(10, exampleMsg1), (20, exampleMsg2)]

/-! Association-list lemmas. -/

theorem mapGet_mapSet_self {α : Type} (m : List (String × α)) (k : String) (v : α) :
    mapGet (mapSet m k v) k = some v := by
  induction m with
  | nil => simp [mapSet, mapGet]
  | cons hd tl ih =>
      obtain ⟨k0, v0⟩ := hd
      by_cases h : k0 = k
      · simp [mapSet, mapGet, h]
      · simp [mapSet, mapGet, h, ih]

theorem mapGet_mapSet_ne {α : Type} (m : List (String × α)) (k j : String) (v : α)
    (h : j ≠ k) : mapGet (mapSet m k v) j = mapGet m j := by
  have hkj : ¬ k = j := fun hk => h hk.symm
  induction m with
  | nil =>
      simp only [mapSet, mapGet]
      rw [if_neg hkj]
  | cons hd tl ih =>
      obtain ⟨k0, v0⟩ := hd
      simp only [mapSet]
      by_cases hk : k0 = k
      · rw [if_pos hk]
        simp only [mapGet]
        rw [if_neg hkj, if_neg (hk ▸ hkj : ¬ k0 = j)]
      · rw [if_neg hk]
        simp only [mapGet]
        by_cases hj : k0 = j
        · rw [if_pos hj, if_pos hj]
        · rw [if_neg hj, if_neg hj, ih]

theorem mapGet_mapDelete_ne {α : Type} (m : List (String × α)) (k j : String)
    (h : j ≠ k) : mapGet (mapDelete m k) j = mapGet m j := by
  induction m with
  | nil => simp [mapDelete]
  | cons hd tl ih =>
      obtain ⟨k0, v0⟩ := hd
      simp only [mapDelete]
      by_cases hk : k0 = k
      · rw [if_pos hk]
        simp only [mapGet]
        rw [if_neg (fun hj : k0 = j => h (hk ▸ hj).symm)]
      · rw [if_neg hk]
        simp only [mapGet]
        by_cases hj : k0 = j
        · rw [if_pos hj, if_pos hj]
        · rw [if_neg hj, if_neg hj, ih]

theorem mapGet_eq_none_of_not_mem_keys {α : Type} {m : List (String × α)} {k : String}
    (h : k ∉ m.map Prod.fst) : mapGet m k = none := by
  induction m with
  | nil => simp [mapGet]
  | cons hd tl ih =>
      obtain ⟨k0, v0⟩ := hd
      simp only [List.map_cons, List.mem_cons, not_or] at h
      simp only [mapGet]
      rw [if_neg (fun hk : k0 = k => h.1 hk.symm)]
      exact ih h.2

theorem mapGet_mapDelete_self {α : Type} (m : List (String × α)) (k : String)
    (h : (m.map Prod.fst).Nodup) : mapGet (mapDelete m k) k = none := by
  induction m with
  | nil => simp [mapDelete, mapGet]
  | cons hd tl ih =>
      obtain ⟨k0, v0⟩ := hd
      simp only [List.map_cons, List.nodup_cons] at h
      by_cases hk : k0 = k
      · subst hk
        simp only [mapDelete, if_pos rfl]
        exact mapGet_eq_none_of_not_mem_keys h.1
      · simp only [mapDelete, if_neg hk, mapGet]
        exact ih h.2

theorem mapGet_mem {α : Type} {m : List (String × α)} {k : String} {v : α}
    (h : mapGet m k = some v) : (k, v) ∈ m := by
  induction m with
  | nil => simp [mapGet] at h
  | cons hd tl ih =>
      obtain ⟨k0, v0⟩ := hd
      simp only [mapGet] at h
      by_cases hk : k0 = k
      · subst hk
        rw [if_pos rfl] at h
        injection h with hv
        subst hv
        exact List.mem_cons_self _ _
      · rw [if_neg hk] at h
        exact List.mem_cons_of_mem _ (ih h)

theorem mem_mapSet {α : Type} {m : List (String × α)} {k : String} {v : α}
    {p : String × α} (h : p ∈ mapSet m k v) : p ∈ m ∨ p = (k, v) := by
  induction m with
  | nil =>
      simp only [mapSet, List.mem_singleton] at h
      exact Or.inr h
  | cons hd tl ih =>
      obtain ⟨k0, v0⟩ := hd
      by_cases hk : k0 = k
      · simp only [mapSet, if_pos hk, List.mem_cons] at h
        rcases h with h | h
        · exact Or.inr h
        · exact Or.inl (List.mem_cons_of_mem _ h)
      · simp only [mapSet, if_neg hk, List.mem_cons] at h
        rcases h with h | h
        · exact Or.inl (h ▸ List.mem_cons_self _ _)
        · rcases ih h with h2 | h2
          · exact Or.inl (List.mem_cons_of_mem _ h2)
          · exact Or.inr h2

theorem mem_mapDelete {α : Type} {m : List (String × α)} {k : String}
    {p : String × α} (h : p ∈ mapDelete m k) : p ∈ m := by
  induction m with
  | nil => simp [mapDelete] at h
  | cons hd tl ih =>
      obtain ⟨k0, v0⟩ := hd
      by_cases hk : k0 = k
      · simp only [mapDelete, if_pos hk] at h
        exact List.mem_cons_of_mem _ h
      · simp only [mapDelete, if_neg hk, List.mem_cons] at h
        rcases h with h | h
        · exact h ▸ List.mem_cons_self _ _
        · exact List.mem_cons_of_mem _ (ih h)

theorem mem_keys_mapSet {α : Type} {m : List (String × α)} {k j : String} {v : α}
    (h : j ∈ (mapSet m k v).map Prod.fst) : j ∈ m.map Prod.fst ∨ j = k := by
  rcases List.mem_map.mp h with ⟨p, hp, hj⟩
  rcases mem_mapSet hp with h2 | h2
  · exact Or.inl (hj ▸ List.mem_map_of_mem Prod.fst h2)
  · subst h2
    exact Or.inr hj.symm

theorem nodup_keys_mapSet {α : Type} (m : List (String × α)) (k : String) (v : α)
    (h : (m.map Prod.fst).Nodup) : ((mapSet m k v).map Prod.fst).Nodup := by
  induction m with
  | nil => simp [mapSet]
  | cons hd tl ih =>
      obtain ⟨k0, v0⟩ := hd
      simp only [List.map_cons, List.nodup_cons] at h
      by_cases hk : k0 = k
      · subst hk
        simpa [mapSet, List.nodup_cons] using h
      · simp only [mapSet, if_neg hk, List.map_cons]
        refine List.nodup_cons.mpr ⟨?_, ih h.2⟩
        intro hmem
        rcases mem_keys_mapSet hmem with h2 | h2
        · exact h.1 h2
        · exact hk h2

/-! Lemmas about the cleanup loop of `remove`. -/

theorem removePendingLoop_fst (id : String) (l : List (String × PendingCommand)) :
    (removePendingLoop id l).1 = l.filter (fun p => ! jsStartsWith p.1 id) := by
  induction l with
  | nil => simp [removePendingLoop]
  | cons hd tl ih =>
      obtain ⟨reqId, p⟩ := hd
      by_cases h : jsStartsWith reqId id
      · simp [removePendingLoop, h, ih]
      · simp [removePendingLoop, h, ih]

theorem removePendingLoop_outputs (id : String) (l : List (String × PendingCommand))
    (p : String × PendingCommand) (hmem : p ∈ l) (hpre : jsStartsWith p.1 id = true) :
    Output.timerCleared p.2.timerId ∈ (removePendingLoop id l).2 ∧
    Output.rejected p.1 "Connection closed" ∈ (removePendingLoop id l).2 := by
  induction l with
  | nil => simp at hmem
  | cons hd tl ih =>
      obtain ⟨reqId, q⟩ := hd
      rcases List.mem_cons.mp hmem with h | h
      · subst h
        simp [removePendingLoop, hpre]
      · by_cases hh : jsStartsWith reqId id
        · have := ih h
          simp only [removePendingLoop, if_pos hh]
          exact ⟨List.mem_cons_of_mem _ (List.mem_cons_of_mem _ this.1),
                 List.mem_cons_of_mem _ (List.mem_cons_of_mem _ this.2)⟩
        · have := ih h
          simpa only [removePendingLoop, if_neg hh] using this

/-! Lemmas about the handler-notification loop of `updateContext`. -/

theorem runHandlers_length (conn : TabConnection) (context : PageContext)
    (hs : List Handler) (i : Nat) :
    (runHandlers conn context hs i).length = hs.length := by
  induction hs generalizing i with
  | nil => simp [runHandlers]
  | cons h tl ih => simp [runHandlers, ih]

theorem runHandlers_get (conn : TabConnection) (context : PageContext)
    (hs : List Handler) (i j : Nat) (hj : j < hs.length) :
    ∃ b, (runHandlers conn context hs i)[j]? = some (Output.handlerRun (i + j) b) := by
  induction hs generalizing i j with
  | nil => simp at hj
  | cons h tl ih =>
      cases j with
      | zero =>
          cases hh : h conn context with
          | ok u => exact ⟨true, by simp [runHandlers, hh]⟩
          | error e => exact ⟨false, by simp [runHandlers, hh]⟩
      | succ j =>
          have hj2 : j < tl.length := by simpa using Nat.lt_of_succ_lt_succ hj
          obtain ⟨b, hb⟩ := ih (i + 1) j hj2
          refine ⟨b, ?_⟩
          simp only [runHandlers, List.getElem?_cons_succ]
          rw [hb]
          congr 2
          omega

/-! Lemmas about the scan of `getActive`. -/

theorem activeStep_foldl_le (l : List TabConnection) (a : Option TabConnection) (m : Nat) :
    m ≤ (l.foldl activeStep (a, m)).2 ∧
    ∀ c ∈ l, c.lastActivity ≤ (l.foldl activeStep (a, m)).2 := by
  induction l generalizing a m with
  | nil => simp
  | cons c tl ih =>
      by_cases h : c.lastActivity > m
      · have step : activeStep (a, m) c = (some c, c.lastActivity) := by
          simp [activeStep, h]
        obtain ⟨h1, h2⟩ := ih (some c) c.lastActivity
        refine ⟨?_, ?_⟩
        · calc m ≤ c.lastActivity := Nat.le_of_lt h
            _ ≤ _ := by rw [List.foldl_cons, step]; exact h1
        · intro d hd
          rcases List.mem_cons.mp hd with h3 | h3
          · subst h3
            rw [List.foldl_cons, step]
            exact h1
          · rw [List.foldl_cons, step]
            exact h2 d h3
      · have step : activeStep (a, m) c = (a, m) := by
          simp [activeStep, h]
        obtain ⟨h1, h2⟩ := ih a m
        refine ⟨?_, ?_⟩
        · rw [List.foldl_cons, step]
          exact h1
        · intro d hd
          rcases List.mem_cons.mp hd with h3 | h3
          · subst h3
            rw [List.foldl_cons, step]
            calc d.lastActivity ≤ m := Nat.le_of_not_lt h
              _ ≤ _ := h1
          · rw [List.foldl_cons, step]
            exact h2 d h3

theorem activeStep_foldl_cases (l : List TabConnection) (a : Option TabConnection) (m : Nat) :
    (l.foldl activeStep (a, m) = (a, m)) ∨
    (∃ c ∈ l, (l.foldl activeStep (a, m)).1 = some c ∧
              (l.foldl activeStep (a, m)).2 = c.lastActivity ∧
              m < c.lastActivity) := by
  induction l generalizing a m with
  | nil => exact Or.inl rfl
  | cons c tl ih =>
      by_cases h : c.lastActivity > m
      · have step : activeStep (a, m) c = (some c, c.lastActivity) := by
          simp [activeStep, h]
        rw [List.foldl_cons, step]
        rcases ih (some c) c.lastActivity with h2 | h2
        · refine Or.inr ⟨c, List.mem_cons_self _ _, ?_, ?_, h⟩
          · rw [h2]
          · rw [h2]
        · obtain ⟨d, hd, hd1, hd2, hd3⟩ := h2
          exact Or.inr ⟨d, List.mem_cons_of_mem _ hd, hd1, hd2, Nat.lt_trans h hd3⟩
      · have step : activeStep (a, m) c = (a, m) := by
          simp [activeStep, h]
        rw [List.foldl_cons, step]
        rcases ih a m with h2 | h2
        · exact Or.inl h2
        · obtain ⟨d, hd, hd1, hd2, hd3⟩ := h2
          exact Or.inr ⟨d, List.mem_cons_of_mem _ hd, hd1, hd2, hd3⟩

/-! Evaluation of `handleCommandResult`: the dynamic access to the closure's
`pendingCommands` yields `undefined`, so the function returns its input
unchanged and emits nothing. -/

theorem handleCommandResult_eq (s : StoreState) (connId requestId : String) (result : JsValue) :
    handleCommandResult s connId requestId result = (s, []) := rfl

/-! Tab-binding preservation lemmas for the websocket handler (claim C9). -/

theorem remove_connections_subset {s : StoreState} {id : String}
    {p : String × TabConnection} (h : p ∈ (remove s id).1.connections) :
    p ∈ s.connections := by
  unfold remove at h
  cases hget : mapGet s.connections id with
  | none => rw [hget] at h; exact h
  | some conn =>
      rw [hget] at h
      exact mem_mapDelete h

theorem updateContext_mem {s : StoreState} {id : String} {context : PageContext} {now : Nat}
    {p : String × TabConnection} (h : p ∈ (updateContext s id context now).1.connections) :
    p ∈ s.connections ∨
    ∃ conn, (id, conn) ∈ s.connections ∧ p.1 = id ∧ p.2.tabId = conn.tabId := by
  unfold updateContext at h
  cases hget : mapGet s.connections id with
  | none => rw [hget] at h; exact Or.inl h
  | some conn =>
      rw [hget] at h
      rcases mem_mapSet h with h2 | h2
      · exact Or.inl h2
      · subst h2
        exact Or.inr ⟨conn, mapGet_mem hget, rfl, rfl⟩

theorem dispatchMessage_inv (connId : String) (now : Nat) (msg : PincerMessage)
    (w : WsState) (b : Option Nat) (h : TabBindingInv connId w b) :
    TabBindingInv connId (dispatchMessage connId now msg w).1 b := by
  obtain ⟨h1, h2⟩ := h
  unfold dispatchMessage
  split_ifs with c1 c2 c3 c4 c5 c6 c7
  · exact ⟨h1, h2⟩
  · refine ⟨h1, ?_⟩
    intro p hp hpc
    exact h2 p (remove_connections_subset hp) hpc
  · refine ⟨h1, ?_⟩
    intro p hp hpc
    rcases updateContext_mem hp with hmem | ⟨conn, hconn, hpid, htab⟩
    · exact h2 p hmem hpc
    · rw [htab]
      exact h2 (connId, conn) hconn rfl
  · exact ⟨h1, h2⟩
  · cases msg.requestId with
    | none => exact ⟨h1, h2⟩
    | some rid =>
        simp only [handleCommandResult_eq]
        exact ⟨h1, h2⟩
  · exact ⟨h1, h2⟩
  · exact ⟨h1, h2⟩
  · exact ⟨h1, h2⟩

theorem handleMessage_inv (connId : String) (now : Nat) (msg : PincerMessage)
    (w : WsState) (b : Option Nat) (h : TabBindingInv connId w b) :
    TabBindingInv connId (handleMessage connId now msg w).1 (stepBinding b msg) := by
  obtain ⟨h1, h2⟩ := h
  unfold handleMessage
  by_cases cond : msg.tabId ≠ 0 ∧ w.tabIdVar = none
  · have hb : b = none := by rw [← h1, cond.2]
    subst hb
    have hstep : stepBinding none msg = some msg.tabId := by
      simp [stepBinding, cond.1]
    rw [hstep, if_pos cond]
    apply dispatchMessage_inv
    refine ⟨rfl, ?_⟩
    intro p hp hpc
    rcases mem_mapSet hp with hmem | hmem
    · exact absurd (h2 p hmem hpc) (by simp)
    · subst hmem
      rfl
  · rw [if_neg cond]
    have hstep : stepBinding b msg = b := by
      cases hb : b with
      | some t => simp [stepBinding]
      | none =>
          have : ¬ msg.tabId ≠ 0 := by
            intro htab
            exact cond ⟨htab, by rw [h1, hb]⟩
          simp [stepBinding, this]
    rw [hstep]
    exact dispatchMessage_inv connId now msg w b ⟨h1, h2⟩

theorem runMessages_inv (connId : String) (msgs : List (Nat × PincerMessage)) :
    ∀ (w : WsState) (b : Option Nat), TabBindingInv connId w b →
    TabBindingInv connId (runMessages connId w msgs) (bindAfter b msgs) := by
  induction msgs with
  | nil =>
      intro w b h
      have : bindAfter b [] = b := by
        cases b with
        | some t => rfl
        | none => rfl
      rw [this]
      exact h
  | cons hd tl ih =>
      obtain ⟨now, m⟩ := hd
      intro w b h
      have hstep := handleMessage_inv connId now m w b h
      have hrun := ih _ _ hstep
      have heq : bindAfter (stepBinding b m) tl = bindAfter b ((now, m) :: tl) := by
        cases b with
        | some t => rfl
        | none =>
            by_cases htab : m.tabId ≠ 0
            · simp [stepBinding, bindAfter, firstTabBinding, htab]
            · simp [stepBinding, bindAfter, firstTabBinding, htab]
      rw [heq] at hrun
      exact hrun

/-! Claim theorems. -/

/-- C1: the claim says a matching `command_result` delivered through
`handleCommandResult` resolves the suspended `sendCommand`, clears its timer
and removes the pending entry. The code does none of this: after `sendCommand`
arms the entry for `("c1", "r1")`, `handleCommandResult` — whose read of
`(store as any).pendingCommands` yields `undefined`, since the map is a
closure variable never attached to the store object — returns with no state
change and no effects; the pending entry is still armed afterwards, so the
result is dropped and the command later times out. -/
theorem C1_command_result_dropped :
    mapGet (sendCommand exampleStoreC1 "c1" clickCommand 1).1.pendingCommands "c1:r1" =
      some { timerId := 1 } ∧
    handleCommandResult (sendCommand exampleStoreC1 "c1" clickCommand 1).1 "c1" "r1" "ok" =
      ((sendCommand exampleStoreC1 "c1" clickCommand 1).1, []) ∧
    mapGet (handleCommandResult (sendCommand exampleStoreC1 "c1" clickCommand 1).1
        "c1" "r1" "ok").1.pendingCommands "c1:r1" = some { timerId := 1 } := by
  refine ⟨by decide, rfl, by decide⟩

/-- C2 counterexample: the claim says `remove(id)` leaves pending requests of
every other connection untouched, but the cleanup tests
`reqId.startsWith(id)`: removing connection `"c"` also rejects and deletes the
request pending under the distinct live connection `"c2"`, because the key
`"c2:r1"` starts with `"c"`. -/
theorem C2_counterexample :
    mapGet exampleStoreC2.connections "c2" = some connC2 ∧
    mapGet exampleStoreC2.pendingCommands "c2:r1" = some { timerId := 5 } ∧
    (remove exampleStoreC2 "c").1.pendingCommands = [] ∧
    Output.rejected "c2:r1" "Connection closed" ∈ (remove exampleStoreC2 "c").2 := by
  decide

/-- C2 (amended): `remove(id)` on a present id deletes the connection (a later
`get(id)` returns none, other connections are untouched), and rejects with a
`"Connection closed"` failure — releasing its timer — every pending request
whose key string `connId:requestId` starts with `id`; this covers every
request of connection `id`, but also the requests of any other connection
whose key string happens to start with `id`; pending entries whose keys do not
start with `id` are kept unchanged. Removing an absent id is a no-op. -/
theorem C2_remove_spec (s : StoreState) (id : String)
    (hnd : (s.connections.map Prod.fst).Nodup) :
    (mapGet s.connections id = none → remove s id = (s, [])) ∧
    (∀ conn, mapGet s.connections id = some conn →
      get (remove s id).1 id = none ∧
      (∀ j, j ≠ id → mapGet (remove s id).1.connections j = mapGet s.connections j) ∧
      (remove s id).1.pendingCommands =
        s.pendingCommands.filter (fun p => ! jsStartsWith p.1 id) ∧
      (∀ p ∈ s.pendingCommands, jsStartsWith p.1 id = true →
        Output.timerCleared p.2.timerId ∈ (remove s id).2 ∧
        Output.rejected p.1 "Connection closed" ∈ (remove s id).2)) := by
  constructor
  · intro h
    unfold remove
    rw [h]
  · intro conn h
    unfold remove get
    rw [h]
    refine ⟨?_, ?_, ?_, ?_⟩
    · exact mapGet_mapDelete_self s.connections id hnd
    · intro j hj
      exact mapGet_mapDelete_ne s.connections id j hj
    · exact removePendingLoop_fst id s.pendingCommands
    · intro p hp hpre
      exact removePendingLoop_outputs id s.pendingCommands p hp hpre

/-- C2 witness: instantiating the amended statement on the concrete registry. -/
theorem C2_witness :
    get (remove exampleStoreC2 "c").1 "c" = none ∧
    (remove exampleStoreC2 "c").1.pendingCommands =
      exampleStoreC2.pendingCommands.filter (fun p => ! jsStartsWith p.1 "c") :=
  ⟨((C2_remove_spec exampleStoreC2 "c" (by decide)).2 connC (by decide)).1,
   ((C2_remove_spec exampleStoreC2 "c" (by decide)).2 connC (by decide)).2.2.1⟩

/-- C3: `sendCommand` on an existing connection with an open socket arms a
30000 ms timer under key `id:requestId`; the timer's expiry callback rejects
the suspended call with `"Command timeout"` — emitting exactly that one
rejection — and removes the pending entry; any result delivered afterwards for
the same requestId changes nothing. -/
theorem C3_command_timeout (s : StoreState) (id : String) (command : PincerCommand)
    (timerId : Nat) (conn : TabConnection)
    (hconn : mapGet s.connections id = some conn)
    (hopen : conn.wsReadyState = 1)
    (hnd : (s.pendingCommands.map Prod.fst).Nodup) :
    Output.timerSet timerId 30000 ∈ (sendCommand s id command timerId).2.1 ∧
    mapGet (sendCommand s id command timerId).1.pendingCommands
      (id ++ ":" ++ command.requestId) = some { timerId := timerId } ∧
    (fireCommandTimeout (sendCommand s id command timerId).1
      (id ++ ":" ++ command.requestId)).2 =
      [Output.rejected (id ++ ":" ++ command.requestId) "Command timeout"] ∧
    mapGet (fireCommandTimeout (sendCommand s id command timerId).1
      (id ++ ":" ++ command.requestId)).1.pendingCommands
      (id ++ ":" ++ command.requestId) = none ∧
    (∀ result, handleCommandResult (fireCommandTimeout (sendCommand s id command timerId).1
        (id ++ ":" ++ command.requestId)).1 id command.requestId result =
      ((fireCommandTimeout (sendCommand s id command timerId).1
        (id ++ ":" ++ command.requestId)).1, [])) := by
  have hrs : ¬ conn.wsReadyState ≠ 1 := not_not_intro hopen
  simp only [sendCommand, hconn, if_neg hrs]
  refine ⟨?_, ?_, ?_, ?_, ?_⟩
  · simp
  · exact mapGet_mapSet_self s.pendingCommands _ _
  · rfl
  · exact mapGet_mapDelete_self _ _ (nodup_keys_mapSet s.pendingCommands _ _ hnd)
  · intro result
    exact handleCommandResult_eq _ id command.requestId result

/-- C3 witness: the concrete end-to-end timeout scenario. -/
theorem C3_witness :
    mapGet (sendCommand exampleStoreC1 "c1" clickCommand 3).1.pendingCommands
      ("c1" ++ ":" ++ clickCommand.requestId) = some { timerId := 3 } ∧
    mapGet (fireCommandTimeout (sendCommand exampleStoreC1 "c1" clickCommand 3).1
      ("c1" ++ ":" ++ clickCommand.requestId)).1.pendingCommands
      ("c1" ++ ":" ++ clickCommand.requestId) = none :=
  ⟨(C3_command_timeout exampleStoreC1 "c1" clickCommand 3 connC1
      (by decide) (by decide) (by decide)).2.1,
   (C3_command_timeout exampleStoreC1 "c1" clickCommand 3 connC1
      (by decide) (by decide) (by decide)).2.2.2.1⟩

/-- C4: `sendCommand` against an unregistered id fails immediately with the
connection-not-found error, and against a registered connection whose socket
is not open-for-write (`readyState !== 1`) with the connection-not-open error;
in both cases the store is unchanged and no output — in particular no pending
entry and no timer — is produced. -/
theorem C4_sendCommand_validation (s : StoreState) (id : String)
    (command : PincerCommand) (timerId : Nat) :
    (mapGet s.connections id = none →
      sendCommand s id command timerId = (s, [], SendOutcome.failedNotFound id)) ∧
    (∀ conn, mapGet s.connections id = some conn → conn.wsReadyState ≠ 1 →
      sendCommand s id command timerId = (s, [], SendOutcome.failedNotOpen id)) := by
  constructor
  · intro h
    simp only [sendCommand, h]
  · intro conn h hne
    simp only [sendCommand, h, if_pos hne]

/-- C4 witness: an unregistered id and a closed-socket connection. -/
theorem C4_witness :
    sendCommand exampleStoreC4 "zz" clickCommand 9 =
      (exampleStoreC4, [], SendOutcome.failedNotFound "zz") ∧
    sendCommand exampleStoreC4 "c3" clickCommand 9 =
      (exampleStoreC4, [], SendOutcome.failedNotOpen "c3") :=
  ⟨(C4_sendCommand_validation exampleStoreC4 "zz" clickCommand 9).1 (by decide),
   (C4_sendCommand_validation exampleStoreC4 "c3" clickCommand 9).2 connClosed
     (by decide) (by decide)⟩

/-- C5: from attempt counter 0, five consecutive `scheduleReconnect` calls arm
delays of exactly 1000, 2000, 4000, 8000 and 16000 ms
(`delay = 1000 ms * 2 ^ attempts`, incrementing the counter each time) and
leave the counter at 5; any call with the counter at or past 5 arms no timer
and changes nothing, so the client stays disconnected until `connect()` is
invoked explicitly. -/
theorem C5_reconnect_backoff (c : GatewayConnection) (t1 t2 t3 t4 t5 t6 : Nat)
    (h : c.reconnectAttempts = 0) :
    (runScheduleSeq c [t1, t2, t3, t4, t5]).2 =
      [ClientOutput.timerSet t1 1000, ClientOutput.timerSet t2 2000,
       ClientOutput.timerSet t3 4000, ClientOutput.timerSet t4 8000,
       ClientOutput.timerSet t5 16000] ∧
    (runScheduleSeq c [t1, t2, t3, t4, t5]).1.reconnectAttempts = 5 ∧
    (∀ c2 : GatewayConnection, maxReconnectAttempts ≤ c2.reconnectAttempts →
      scheduleReconnect c2 t6 = (c2, [])) := by
  obtain ⟨ws, rt, ra⟩ := c
  have h2 : ra = 0 := h
  subst h2
  refine ⟨?_, ?_, ?_⟩
  · simp [runScheduleSeq, scheduleReconnect, maxReconnectAttempts, reconnectDelay]
  · simp [runScheduleSeq, scheduleReconnect, maxReconnectAttempts, reconnectDelay]
  · intro c2 h5
    unfold scheduleReconnect
    rw [if_pos h5]

/-- C5 witness: the delay schedule at a concrete fresh client state. -/
theorem C5_witness :
    (runScheduleSeq { ws := none, reconnectTimer := none, reconnectAttempts := 0 }
        [11, 12, 13, 14, 15]).2 =
      [ClientOutput.timerSet 11 1000, ClientOutput.timerSet 12 2000,
       ClientOutput.timerSet 13 4000, ClientOutput.timerSet 14 8000,
       ClientOutput.timerSet 15 16000] :=
  (C5_reconnect_backoff ⟨none, none, 0⟩ 11 12 13 14 15 0 rfl).1

/-- C6: the socket error handler only reports the Error status and notifies
the caller — it leaves the connection state (reconnect timer, attempt counter)
untouched and arms no timer; reconnect scheduling happens solely in the close
handler, so an error followed by its close event arms exactly one reconnect
timer and increments the attempt counter exactly once. -/
theorem C6_error_then_close_single_reconnect (c : GatewayConnection) (t : Nat) :
    (onWsError c).1 = c ∧
    (onWsError c).2 =
      [ClientOutput.statusChange ConnectionStatus.error, ClientOutput.errorNotify] ∧
    (∀ o ∈ (onWsError c).2, isTimerSet o = false) ∧
    (c.reconnectAttempts < maxReconnectAttempts →
      ((onWsError c).2 ++ (onWsClose (onWsError c).1 t).2).countP isTimerSet = 1 ∧
      (onWsClose (onWsError c).1 t).1.reconnectAttempts = c.reconnectAttempts + 1) := by
  refine ⟨rfl, rfl, ?_, ?_⟩
  · intro o ho
    simp only [onWsError] at ho
    rcases List.mem_cons.mp ho with h | h
    · subst h; rfl
    · rcases List.mem_cons.mp h with h2 | h2
      · subst h2; rfl
      · simp at h2
  · intro hlt
    have hcond : ¬ c.reconnectAttempts ≥ maxReconnectAttempts := Nat.not_le_of_lt hlt
    constructor
    · simp [onWsError, onWsClose, scheduleReconnect, if_neg hcond,
            List.countP_cons, List.countP_nil, isTimerSet]
    · simp [onWsError, onWsClose, scheduleReconnect, if_neg hcond]

/-- C6 witness: the composed error-then-close step at a concrete state. -/
theorem C6_witness :
    ((onWsError ⟨some 3, none, 2⟩).2 ++
      (onWsClose (onWsError ⟨some 3, none, 2⟩).1 42).2).countP isTimerSet = 1 ∧
    (onWsClose (onWsError ⟨some 3, none, 2⟩).1 42).1.reconnectAttempts = 2 + 1 :=
  (C6_error_then_close_single_reconnect ⟨some 3, none, 2⟩ 42).2.2.2 (by decide)

/-- C7: `updateContext` on a present connection stores exactly the passed
context, sets `lastActivity` to the clock value, refreshes `url`/`title` from
the context, leaves every other connection and the rest of the store
unchanged, and invokes every registered handler in registration order — the
trace carries one entry per handler, indexed in order, whether or not earlier
handlers raised, so a raising handler neither stops later handlers nor alters
the stored context; on an absent id the call is a no-op. -/
theorem C7_updateContext_spec (s : StoreState) (id : String) (context : PageContext)
    (now : Nat) :
    (∀ conn, mapGet s.connections id = some conn →
      mapGet (updateContext s id context now).1.connections id =
        some { conn with context := some context, lastActivity := now,
                         url := context.url, title := context.title } ∧
      (∀ j, j ≠ id →
        mapGet (updateContext s id context now).1.connections j = mapGet s.connections j) ∧
      (updateContext s id context now).1.pendingCommands = s.pendingCommands ∧
      (updateContext s id context now).1.contextHandlers = s.contextHandlers ∧
      (updateContext s id context now).2.length = s.contextHandlers.length ∧
      (∀ i, i < s.contextHandlers.length →
        ∃ b, (updateContext s id context now).2[i]? = some (Output.handlerRun i b))) ∧
    (mapGet s.connections id = none → updateContext s id context now = (s, [])) := by
  constructor
  · intro conn h
    simp only [updateContext, h]
    refine ⟨?_, ?_, by trivial, by trivial, ?_, ?_⟩
    · exact mapGet_mapSet_self s.connections id _
    · intro j hj
      exact mapGet_mapSet_ne s.connections id j _ hj
    · exact runHandlers_length _ _ _ _
    · intro i hi
      have hg := runHandlers_get
        { conn with context := some context, lastActivity := now,
                    url := context.url, title := context.title }
        context s.contextHandlers 0 i hi
      simpa using hg
  · intro h
    simp only [updateContext, h]

/-- C7 witness: a raising first handler does not stop the second handler nor
corrupt the stored context. -/
theorem C7_witness :
    mapGet (updateContext exampleStoreC7 "c1" exampleContext 60).1.connections "c1" =
      some { connC1 with context := some exampleContext, lastActivity := 60,
                         url := exampleContext.url, title := exampleContext.title } ∧
    (updateContext exampleStoreC7 "c1" exampleContext 60).2.length =
      exampleStoreC7.contextHandlers.length ∧
    (∃ b, (updateContext exampleStoreC7 "c1" exampleContext 60).2[1]? =
      some (Output.handlerRun 1 b)) :=
  ⟨((C7_updateContext_spec exampleStoreC7 "c1" exampleContext 60).1 connC1 (by decide)).1,
   ((C7_updateContext_spec exampleStoreC7 "c1" exampleContext 60).1 connC1 (by decide)).2.2.2.2.1,
   ((C7_updateContext_spec exampleStoreC7 "c1" exampleContext 60).1 connC1 (by decide)).2.2.2.2.2
     1 (by decide)⟩

/-- C8 counterexample: the claim says `getActive()` over a registry with at
least one connection returns a connection of maximal `lastActivity`, but the
scan starts from `maxActivity = 0` with a strict comparison: over a non-empty
registry whose only connection has `lastActivity = 0` it returns none. -/
theorem C8_counterexample :
    exampleStoreC8.connections ≠ [] ∧ getActive exampleStoreC8 = none := by
  constructor
  · decide
  · decide

/-- C8 (amended): `getActive()` over an empty registry returns not-found, and
likewise when every connection's `lastActivity` is 0 (the scan starts from
`maxActivity = 0` and uses a strict comparison); when some connection has
positive `lastActivity` it returns a connection attaining the maximum
`lastActivity` over all connections. -/
theorem C8_getActive_spec (s : StoreState) :
    (s.connections = [] → getActive s = none) ∧
    ((∀ p ∈ s.connections, p.2.lastActivity = 0) → getActive s = none) ∧
    ((∃ p ∈ s.connections, 0 < p.2.lastActivity) →
      ∃ c, getActive s = some c ∧ (∃ p ∈ s.connections, p.2 = c) ∧
        ∀ p ∈ s.connections, p.2.lastActivity ≤ c.lastActivity) := by
  refine ⟨?_, ?_, ?_⟩
  · intro h
    simp [getActive, h]
  · intro h
    rcases activeStep_foldl_cases (s.connections.map Prod.snd) none 0 with h2 | h2
    · simp [getActive, h2]
    · obtain ⟨c, hc, _, _, h3⟩ := h2
      rcases List.mem_map.mp hc with ⟨p, hp, hpc⟩
      have hz : p.2.lastActivity = 0 := h p hp
      rw [hpc] at hz
      omega
  · rintro ⟨p0, hp0, hpos⟩
    rcases activeStep_foldl_cases (s.connections.map Prod.snd) none 0 with h2 | h2
    · exfalso
      have hle := (activeStep_foldl_le (s.connections.map Prod.snd) none 0).2 p0.2
        (List.mem_map_of_mem Prod.snd hp0)
      rw [h2] at hle
      simp at hle
      omega
    · obtain ⟨c, hc, h1, h2v, _⟩ := h2
      refine ⟨c, ?_, ?_, ?_⟩
      · unfold getActive
        exact h1
      · rcases List.mem_map.mp hc with ⟨p, hp, hpc⟩
        exact ⟨p, hp, hpc⟩
      · intro p hp
        have hle := (activeStep_foldl_le (s.connections.map Prod.snd) none 0).2 p.2
          (List.mem_map_of_mem Prod.snd hp)
        rw [h2v] at hle
        exact hle

/-- C8 witness: two connections with positive activity. -/
theorem C8_witness :
    ∃ c, getActive exampleStoreC8b = some c ∧
      (∃ p ∈ exampleStoreC8b.connections, p.2 = c) ∧
      ∀ p ∈ exampleStoreC8b.connections, p.2.lastActivity ≤ c.lastActivity :=
  (C8_getActive_spec exampleStoreC8b).2.2 (by decide)

/-- C9: over every inbound message sequence on a single socket, the registry
entry for the connection is bound to at most one tab id: whenever the entry is
present after processing the sequence, its tab id equals the tab id of the
first message carrying a truthy tab id — later messages carrying different
tab ids never rebind it. -/
theorem C9_tab_binding (connId : String) (msgs : List (Nat × PincerMessage)) (w0 : WsState)
    (hvar : w0.tabIdVar = none)
    (hfresh : ∀ p ∈ w0.store.connections, p.1 ≠ connId) :
    ∀ conn, mapGet (runMessages connId w0 msgs).store.connections connId = some conn →
      firstTabBinding msgs = some conn.tabId := by
  intro conn hget
  have hinv : TabBindingInv connId w0 none := by
    refine ⟨hvar, ?_⟩
    intro p hp hpc
    exact absurd hpc (hfresh p hp)
  have hrun := runMessages_inv connId msgs w0 none hinv
  have hba : bindAfter none msgs = firstTabBinding msgs := rfl
  rw [hba] at hrun
  exact hrun.2 (connId, conn) (mapGet_mem hget) rfl

/-- C9 witness: a first message binding tab 7 followed by a message carrying
tab 9; the stored binding stays 7. -/
theorem C9_witness :
    firstTabBinding exampleMsgs = some 7 ∧
    (∀ conn, mapGet (runMessages "k1" exampleW0 exampleMsgs).store.connections "k1" =
        some conn → firstTabBinding exampleMsgs = some conn.tabId) ∧
    (∃ conn, mapGet (runMessages "k1" exampleW0 exampleMsgs).store.connections "k1" =
        some conn ∧ conn.tabId = 7) :=
  ⟨by decide,
   C9_tab_binding "k1" exampleMsgs exampleW0 rfl (by decide),
   by decide⟩

/-- C10: the polled `status` getter never returns the error status: it returns
disconnected, connecting or connected for every internal socket state, and
returns disconnected whenever no socket object exists or the socket's
`readyState` is neither CONNECTING (0) nor OPEN (1) — i.e. closing or closed. -/
theorem C10_status_never_error (c : GatewayConnection) :
    status c ≠ ConnectionStatus.error ∧
    (status c = ConnectionStatus.disconnected ∨ status c = ConnectionStatus.connecting ∨
      status c = ConnectionStatus.connected) ∧
    (c.ws = none → status c = ConnectionStatus.disconnected) ∧
    (∀ readyState, c.ws = some readyState → readyState ≠ 0 → readyState ≠ 1 →
      status c = ConnectionStatus.disconnected) := by
  refine ⟨?_, ?_, ?_, ?_⟩
  · cases hws : c.ws with
    | none => simp [status, hws]
    | some rs =>
        by_cases h0 : rs = 0
        · simp [status, hws, h0]
        · by_cases h1 : rs = 1 <;> simp [status, hws, h0, h1]
  · cases hws : c.ws with
    | none => simp [status, hws]
    | some rs =>
        by_cases h0 : rs = 0
        · simp [status, hws, h0]
        · by_cases h1 : rs = 1 <;> simp [status, hws, h0, h1]
  · intro hnone
    simp [status, hnone]
  · intro readyState heq hne0 hne1
    simp [status, heq, hne0, hne1]

/-- C10 witness: a closing socket and a missing socket both read as
disconnected. -/
theorem C10_witness :
    status { ws := some 2, reconnectTimer := none, reconnectAttempts := 0 } =
      ConnectionStatus.disconnected ∧
    status { ws := none, reconnectTimer := none, reconnectAttempts := 0 } =
      ConnectionStatus.disconnected :=
  ⟨(C10_status_never_error ⟨some 2, none, 0⟩).2.2.2 2 rfl (by decide) (by decide),
   (C10_status_never_error ⟨none, none, 0⟩).2.2.1 rfl⟩

end Pincer
